import Mathlib

/-!
Shallow embedding of the sandboxed command-execution core
(`codex-rs/core/src/exec.rs`).

Pure fragments of the Rust code (the policy encoders, the output capper,
the outcome classifier) are translated directly into Lean functions.
The effectful parts (spawning a child process, reading from its pipes,
racing its exit against a timeout and an interrupt) are modelled by
explicit oracles: a `World` says what the operating system does for a
given spawn invocation, and a `ChildBehavior` says what the spawned
child does (what each pipe yields on successive reads, and which of the
three racing events — exit, timeout, interrupt — wins).  Wall-clock
time itself is abstracted away: the oracle decides which branch of the
`tokio::select!` fires; the numeric timeout value is still computed by
`effective_timeout_ms`, translating `timeout_ms.unwrap_or(DEFAULT_TIMEOUT_MS)`.

Every function named after a Rust item is a direct translation of that
item; spawn invocations are additionally returned as a trace so that
"no child process is spawned" and "the child's environment equals …"
become statable propositions.
-/

/-- Translation of `MAX_STREAM_OUTPUT: usize = 10 * 1024` (exec.rs line 30). -/
def MAX_STREAM_OUTPUT : Nat := 10 * 1024

/-- Translation of `MAX_STREAM_OUTPUT_LINES: usize = 256` (exec.rs line 31). -/
def MAX_STREAM_OUTPUT_LINES : Nat := 256

/-- Translation of `DEFAULT_TIMEOUT_MS: u64 = 10_000` (exec.rs line 33). -/
def DEFAULT_TIMEOUT_MS : Nat := 10000

/-- Translation of `SIGKILL_CODE: i32 = 9` (exec.rs line 37). -/
def SIGKILL_CODE : Int := 9

/-- Translation of `TIMEOUT_CODE: i32 = 64` (exec.rs line 38). -/
def TIMEOUT_CODE : Int := 64

/-- Modelled from the spec: the contents of the embedded base policy file
`seatbelt_base_policy.sbpl` (pulled in with `include_str!` at exec.rs line 40)
are not part of the sources; the spec treats the text as an opaque multi-line
string literal, so any fixed literal stands in for it here.  No claim depends
on its contents, only on where it is placed in the assembled policy. -/
def MACOS_SEATBELT_BASE_POLICY : String := "(version 1)\n(deny default)"

/-- Translation of `MACOS_PATH_TO_SEATBELT_EXECUTABLE` (exec.rs line 46). -/
def MACOS_PATH_TO_SEATBELT_EXECUTABLE : String := "/usr/bin/sandbox-exec"

/-- Translation of `CODEX_SANDBOX_NETWORK_DISABLED_ENV_VAR` (exec.rs line 56). -/
def CODEX_SANDBOX_NETWORK_DISABLED_ENV_VAR : String := "CODEX_SANDBOX_NETWORK_DISABLED"

/-- Modelled from the spec (§7): the kind carried by a Rust `std::io::Error`.
Only the kinds the core itself constructs are distinguished; oracle-supplied
errors use `other` with a message. -/
inductive IoErrorKind where
  | invalidInput
  | notFound
  | other
  deriving DecidableEq, Repr

/-- Model of Rust `std::io::Error`: a kind plus its message. -/
structure IoError where
  kind : IoErrorKind
  msg : String
  deriving DecidableEq, Repr

/-- Model of `std::process::ExitStatus` on unix: a process either exited
with a code or was terminated by a signal.  `code()` is `none` exactly on
the signalled case, `signal()` is `none` exactly on the exited case,
mirroring `std::os::unix::process::ExitStatusExt`. -/
inductive ExitStatus where
  | exited (code : Int)
  | signaled (signal : Int)
  deriving DecidableEq, Repr

/-- Model of `ExitStatus::code()` on unix. -/
def ExitStatus.code : ExitStatus → Option Int
  | .exited c => some c
  | .signaled _ => none

/-- Model of `ExitStatusExt::signal()` on unix. -/
def ExitStatus.signal : ExitStatus → Option Int
  | .exited _ => none
  | .signaled s => some s

/-- Model of `ExitStatusExt::from_raw` on unix: the low 7 bits of the raw
wait status are the terminating signal; if they are zero the status is a
normal exit whose code sits in the next byte.  The core only applies it to
the synthetic values `128 + 64` and `128 + 9`. -/
def ExitStatus.from_raw (raw : Int) : ExitStatus :=
  if raw % 128 = 0 then ExitStatus.exited (raw / 256) else ExitStatus.signaled (raw % 128)

/-- Translation of `synthetic_exit_status` (exec.rs lines 541-545, unix). -/
def synthetic_exit_status (code : Int) : ExitStatus :=
  ExitStatus.from_raw code

/-- Modelled from the spec (§7) together with its uses in exec.rs: the
sandbox-related error variants `Timeout`, `Signal(n)` and
`Denied{code, stdout, stderr}` of `SandboxErr` (defined in `error.rs`,
which is outside the provided sources). -/
inductive SandboxErr where
  | Timeout
  | Signal (signal : Int)
  | Denied (exit_code : Int) (stdout stderr : String)
  deriving DecidableEq, Repr

/-- Modelled from the spec (§7) together with its uses in exec.rs: the
variants of `CodexErr` (defined in `error.rs`, outside the provided
sources) that the execution core can produce: an I/O failure, the missing
Linux sandbox helper, and a sandbox error. -/
inductive CodexErr where
  | Io (e : IoError)
  | LandlockSandboxExecutableNotProvided
  | Sandbox (e : SandboxErr)
  deriving DecidableEq, Repr

/-- Modelled from the spec (§3): `SandboxPolicy` (defined in `protocol.rs`,
outside the provided sources) is an abstract capability description
supporting four queries: full disk read, full disk write, full network,
and the ordered writable roots derived from a working directory. -/
structure SandboxPolicy where
  full_disk_read : Bool
  full_disk_write : Bool
  full_network : Bool
  writable_roots_with_cwd : String → List String

/-- Query `SandboxPolicy::has_full_disk_read_access`. -/
def SandboxPolicy.has_full_disk_read_access (p : SandboxPolicy) : Bool :=
  p.full_disk_read

/-- Query `SandboxPolicy::has_full_disk_write_access`. -/
def SandboxPolicy.has_full_disk_write_access (p : SandboxPolicy) : Bool :=
  p.full_disk_write

/-- Query `SandboxPolicy::has_full_network_access`. -/
def SandboxPolicy.has_full_network_access (p : SandboxPolicy) : Bool :=
  p.full_network

/-- Query `SandboxPolicy::get_writable_roots_with_cwd`. -/
def SandboxPolicy.get_writable_roots_with_cwd (p : SandboxPolicy) (cwd : String) : List String :=
  p.writable_roots_with_cwd cwd

/-- Translation of `ExecParams` (exec.rs lines 58-64).  Paths are strings,
the env `HashMap` is an association list (unique keys in the Rust map;
all statements about it go through `envLookup`). -/
structure ExecParams where
  command : List String
  cwd : String
  timeout_ms : Option Nat
  env : List (String × String)

/-- Translation of `SandboxType` (exec.rs lines 66-75). -/
inductive SandboxType where
  | None
  | MacosSeatbelt
  | LinuxSeccomp
  deriving DecidableEq, Repr

/-- Translation of `StdioPolicy` (exec.rs lines 355-359). -/
inductive StdioPolicy where
  | RedirectForShellTool
  | Inherit
  deriving DecidableEq, Repr

/-- One result of `reader.read(&mut tmp)` on a child pipe: either a chunk
of bytes (a successful read; the stream ends when the event list ends or a
chunk is empty, matching `n == 0`) or an I/O failure. -/
inductive ReadEvent where
  | data (bytes : List Nat)
  | fail (e : IoError)
  deriving DecidableEq, Repr

/-- Which of the three raced events in `consume_truncated_output` fires
first, together with the outcome of `child.wait()` when the child wins. -/
inductive ChildWait where
  | exited (status : ExitStatus)
  | waitError (e : IoError)
  | timedOut
  | interrupted
  deriving DecidableEq, Repr

/-- Oracle for one spawned child: what `child.stdout.take()` and
`child.stderr.take()` yield (`none` models an unavailable pipe), the
successive read results on each pipe, the winner of the three-way race,
and the result of `child.start_kill()`. -/
structure ChildBehavior where
  stdoutPipe : Option (List ReadEvent)
  stderrPipe : Option (List ReadEvent)
  wait : ChildWait
  startKill : Except IoError Unit

/-- The concrete invocation handed to the operating system by
`spawn_child_async`: program, argv, effective `argv[0]`, working
directory, stdio configuration, and the full child environment after
`env_clear`/`envs`/`env` (so the marker variable, when set, is already
included). -/
structure SpawnSpec where
  program : String
  args : List String
  argv0 : String
  cwd : String
  stdio : StdioPolicy
  env : List (String × String)
  deriving DecidableEq, Repr

/-- Oracle for the operating system: the child obtained (or the I/O error
raised) for a given spawn invocation, and the elapsed wall-clock
milliseconds reported by `start.elapsed()`. -/
structure World where
  spawn : SpawnSpec → Except IoError ChildBehavior
  elapsed_ms : Nat

/-- Lookup in an association-list environment (first match). -/
def envLookup (env : List (String × String)) (k : String) : Option String :=
  (env.find? (fun p => p.1 == k)).map Prod.snd

/-- Model of `cmd.env(k, v)` on top of an existing map: the binding for
`k` is replaced (a `Command` env is a map, so at most one binding per
name survives). -/
def env_with_var (env : List (String × String)) (k v : String) : List (String × String) :=
  env.filter (fun p => !(p.1 == k)) ++ [(k, v)]

/-- Translation of exec.rs lines 386-391: after `cmd.env_clear()` and
`cmd.envs(env)`, the marker variable is bound to "1" exactly when the
policy does not grant full network access. -/
def child_env (sandbox_policy : SandboxPolicy) (env : List (String × String)) :
    List (String × String) :=
  if sandbox_policy.has_full_network_access then env
  else env_with_var env CODEX_SANDBOX_NETWORK_DISABLED_ENV_VAR "1"

/-- Translation of `spawn_child_async` (exec.rs lines 368-437).  The
constructed invocation is recorded as a singleton trace alongside the
oracle's answer; `argv[0]` defaults to the program path as in
`arg0.map_or_else(|| program.to_string_lossy().to_string(), String::from)`. -/
def spawn_child_async (w : World) (program : String) (args : List String)
    (arg0 : Option String) (cwd : String) (sandbox_policy : SandboxPolicy)
    (stdio_policy : StdioPolicy) (env : List (String × String)) :
    Except IoError ChildBehavior × List SpawnSpec :=
  let spec : SpawnSpec :=
    { program := program
      args := args
      argv0 := arg0.getD program
      cwd := cwd
      stdio := stdio_policy
      env := child_env sandbox_policy env }
  (w.spawn spec, [spec])

/-- Modelled from the spec (§4.1): the deterministic JSON serialization of
the `SandboxPolicy` (done with `serde_json` against the serde derivation in
`protocol.rs`, which is outside the provided sources).  No claim depends on
the payload's shape, only on its position in the helper argv, so a simple
deterministic rendering of the three boolean capabilities stands in. -/
def sandbox_policy_json (sandbox_policy : SandboxPolicy) : String :=
  "policy:" ++ toString sandbox_policy.full_disk_read ++ ","
    ++ toString sandbox_policy.full_disk_write ++ ","
    ++ toString sandbox_policy.full_network

/-- Translation of `create_linux_sandbox_command_args` (exec.rs lines
225-249): `[cwd, policy-as-JSON, "--"] ++ command`. -/
def create_linux_sandbox_command_args (command : List String)
    (sandbox_policy : SandboxPolicy) (cwd : String) : List String :=
  let sandbox_policy_cwd := cwd
  let policy_json := sandbox_policy_json sandbox_policy
  [sandbox_policy_cwd, policy_json, "--"] ++ command

/-- Translation of `create_seatbelt_command_args` (exec.rs lines 251-308). -/
def create_seatbelt_command_args (command : List String)
    (sandbox_policy : SandboxPolicy) (cwd : String) : List String :=
  let fw : String × List String :=
    if sandbox_policy.has_full_disk_write_access then
      ("(allow file-write* (regex #\"^/\"))", [])
    else
      let writable_roots := sandbox_policy.get_writable_roots_with_cwd cwd
      let pairs : List String × List String :=
        (writable_roots.enum.map (fun iroot =>
          let param_name := "WRITABLE_ROOT_" ++ toString iroot.1
          let policy := "(subpath (param \"" ++ param_name ++ "\"))"
          let cli_arg := "-D" ++ param_name ++ "=" ++ iroot.2
          (policy, cli_arg))).unzip
      let writable_folder_policies := pairs.1
      let cli_args := pairs.2
      if writable_folder_policies.isEmpty then ("", [])
      else
        ("(allow file-write*\n" ++ String.intercalate " " writable_folder_policies ++ "\n)",
          cli_args)
  let file_write_policy := fw.1
  let extra_cli_args := fw.2
  let file_read_policy : String :=
    if sandbox_policy.has_full_disk_read_access then
      "; allow read-only file operations\n(allow file-read*)"
    else ""
  let network_policy : String :=
    if sandbox_policy.has_full_network_access then
      "(allow network-outbound)\n(allow network-inbound)\n(allow system-socket)"
    else ""
  let full_policy := MACOS_SEATBELT_BASE_POLICY ++ "\n" ++ file_read_policy ++ "\n"
    ++ file_write_policy ++ "\n" ++ network_policy
  ["-p", full_policy] ++ extra_cli_args ++ ["--"] ++ command

/-- Translation of `spawn_command_under_seatbelt` (exec.rs lines 171-190). -/
def spawn_command_under_seatbelt (w : World) (command : List String)
    (sandbox_policy : SandboxPolicy) (cwd : String) (stdio_policy : StdioPolicy)
    (env : List (String × String)) : Except IoError ChildBehavior × List SpawnSpec :=
  let args := create_seatbelt_command_args command sandbox_policy cwd
  spawn_child_async w MACOS_PATH_TO_SEATBELT_EXECUTABLE args none cwd sandbox_policy
    stdio_policy env

/-- Translation of `spawn_command_under_linux_sandbox` (exec.rs lines
199-222): the helper is the externally supplied executable, invoked with
`argv[0]` set to its conventional short name. -/
def spawn_command_under_linux_sandbox (w : World) (codex_linux_sandbox_exe : String)
    (command : List String) (sandbox_policy : SandboxPolicy) (cwd : String)
    (stdio_policy : StdioPolicy) (env : List (String × String)) :
    Except IoError ChildBehavior × List SpawnSpec :=
  let args := create_linux_sandbox_command_args command sandbox_policy cwd
  spawn_child_async w codex_linux_sandbox_exe args (some "codex-linux-sandbox") cwd
    sandbox_policy stdio_policy env

/-- Inner copy loop of `read_capped` (exec.rs lines 521-532): bytes of one
chunk are inspected one at a time; a byte is copied only while both the
byte budget and the line budget are strictly positive, each copied byte
decrements the byte budget, and each copied newline decrements the line
budget.  Returns the copied bytes together with the remaining budgets. -/
def capChunk : List Nat → Nat → Nat → List Nat × Nat × Nat
  | [], remaining_bytes, remaining_lines => ([], remaining_bytes, remaining_lines)
  | b :: bs, remaining_bytes, remaining_lines =>
    if remaining_bytes = 0 ∨ remaining_lines = 0 then
      ([], remaining_bytes, remaining_lines)
    else
      let remaining_lines1 := if b = 10 then remaining_lines - 1 else remaining_lines
      let r := capChunk bs (remaining_bytes - 1) remaining_lines1
      (b :: r.1, r.2)

/-- Read loop of `read_capped` (exec.rs lines 514-536): process successive
read results, breaking on a zero-length read (`n == 0`), propagating a read
error immediately (discarding the buffer accumulated so far, as the `?`
operator does), and otherwise copying under the budgets while continuing
to consume the remaining events to EOF. -/
def read_capped_go : List ReadEvent → List Nat → Nat → Nat → Except IoError (List Nat)
  | [], buf, _, _ => Except.ok buf
  | ReadEvent.fail e :: _, _, _, _ => Except.error e
  | ReadEvent.data c :: rest, buf, remaining_bytes, remaining_lines =>
    if c.length = 0 then Except.ok buf
    else if 0 < remaining_bytes ∧ 0 < remaining_lines then
      let r := capChunk c remaining_bytes remaining_lines
      read_capped_go rest (buf ++ r.1) r.2.1 r.2.2
    else
      read_capped_go rest buf remaining_bytes remaining_lines

/-- Translation of `read_capped` (exec.rs lines 503-539). -/
def read_capped (events : List ReadEvent) (max_output max_lines : Nat) :
    Except IoError (List Nat) :=
  read_capped_go events [] max_output max_lines

/-- A pipe's event list is well formed when every read before EOF returns
at least one byte and no read fails: real `AsyncRead` readers return
`n = 0` only at EOF, so this captures exactly the successful runs. -/
def wellFormed (events : List ReadEvent) : Bool :=
  events.all (fun ev => match ev with
    | ReadEvent.data c => !c.isEmpty
    | ReadEvent.fail _ => false)

/-- The full byte stream carried by an event list: the concatenation of
all its data chunks. -/
def flattenEvents (events : List ReadEvent) : List Nat :=
  events.foldr (fun ev acc => match ev with
    | ReadEvent.data c => c ++ acc
    | ReadEvent.fail _ => acc) []

/-- Translation of `timeout_ms.unwrap_or(DEFAULT_TIMEOUT_MS)` (exec.rs
line 473): the effective wall-clock timeout in milliseconds. -/
def effective_timeout_ms (timeout_ms : Option Nat) : Nat :=
  timeout_ms.getD DEFAULT_TIMEOUT_MS

/-- Translation of `RawExecToolCallOutput` (exec.rs lines 310-315). -/
structure RawExecToolCallOutput where
  exit_status : ExitStatus
  stdout : List Nat
  stderr : List Nat
  deriving DecidableEq, Repr

/-- Translation of `ExecToolCallOutput` (exec.rs lines 317-323); the
duration is in milliseconds. -/
structure ExecToolCallOutput where
  exit_code : Int
  stdout : String
  stderr : String
  duration : Nat
  deriving DecidableEq, Repr

/-- Whether a byte is a UTF-8 continuation byte (`0x80..=0xBF`). -/
def utf8_cont (b : Nat) : Bool := 0x80 ≤ b && b ≤ 0xBF

/-- Lower bound for the second byte of a three-byte UTF-8 sequence. -/
def utf8_cont2_lo (b0 : Nat) : Nat := if b0 = 0xE0 then 0xA0 else 0x80

/-- Upper bound for the second byte of a three-byte UTF-8 sequence. -/
def utf8_cont2_hi (b0 : Nat) : Nat := if b0 = 0xED then 0x9F else 0xBF

/-- Lower bound for the second byte of a four-byte UTF-8 sequence. -/
def utf8_cont4_lo (b0 : Nat) : Nat := if b0 = 0xF0 then 0x90 else 0x80

/-- Upper bound for the second byte of a four-byte UTF-8 sequence. -/
def utf8_cont4_hi (b0 : Nat) : Nat := if b0 = 0xF4 then 0x8F else 0xBF

/-- Model of `String::from_utf8_lossy`: decode UTF-8, replacing each
maximal invalid subsequence prefix with U+FFFD, as Rust does (an invalid
sequence whose leading bytes formed a valid prefix skips exactly that
prefix).  The fuel argument only serves structural termination: every
step consumes at least one input byte, so fuel equal to the input length
(as supplied by `from_utf8_lossy`) never runs out. -/
def utf8_decode_lossy_fuel : Nat → List Nat → List Char
  | 0, _ => []
  | _, [] => []
  | fuel + 1, b0 :: rest =>
    if b0 < 0x80 then Char.ofNat b0 :: utf8_decode_lossy_fuel fuel rest
    else if 0xC2 ≤ b0 && b0 ≤ 0xDF then
      match rest with
      | [] => [Char.ofNat 0xFFFD]
      | b1 :: rest1 =>
        if utf8_cont b1 then
          Char.ofNat ((b0 - 0xC0) * 64 + (b1 - 0x80)) :: utf8_decode_lossy_fuel fuel rest1
        else Char.ofNat 0xFFFD :: utf8_decode_lossy_fuel fuel rest
    else if 0xE0 ≤ b0 && b0 ≤ 0xEF then
      match rest with
      | [] => [Char.ofNat 0xFFFD]
      | b1 :: rest1 =>
        if utf8_cont2_lo b0 ≤ b1 && b1 ≤ utf8_cont2_hi b0 then
          match rest1 with
          | [] => [Char.ofNat 0xFFFD]
          | b2 :: rest2 =>
            if utf8_cont b2 then
              Char.ofNat ((b0 - 0xE0) * 4096 + (b1 - 0x80) * 64 + (b2 - 0x80))
                :: utf8_decode_lossy_fuel fuel rest2
            else Char.ofNat 0xFFFD :: utf8_decode_lossy_fuel fuel rest1
        else Char.ofNat 0xFFFD :: utf8_decode_lossy_fuel fuel rest
    else if 0xF0 ≤ b0 && b0 ≤ 0xF4 then
      match rest with
      | [] => [Char.ofNat 0xFFFD]
      | b1 :: rest1 =>
        if utf8_cont4_lo b0 ≤ b1 && b1 ≤ utf8_cont4_hi b0 then
          match rest1 with
          | [] => [Char.ofNat 0xFFFD]
          | b2 :: rest2 =>
            if utf8_cont b2 then
              match rest2 with
              | [] => [Char.ofNat 0xFFFD]
              | b3 :: rest3 =>
                if utf8_cont b3 then
                  Char.ofNat ((b0 - 0xF0) * 262144 + (b1 - 0x80) * 4096
                      + (b2 - 0x80) * 64 + (b3 - 0x80))
                    :: utf8_decode_lossy_fuel fuel rest3
                else Char.ofNat 0xFFFD :: utf8_decode_lossy_fuel fuel rest2
            else Char.ofNat 0xFFFD :: utf8_decode_lossy_fuel fuel rest1
        else Char.ofNat 0xFFFD :: utf8_decode_lossy_fuel fuel rest
    else Char.ofNat 0xFFFD :: utf8_decode_lossy_fuel fuel rest

/-- Model of `String::from_utf8_lossy(..).to_string()`. -/
def from_utf8_lossy (bytes : List Nat) : String :=
  String.mk (utf8_decode_lossy_fuel bytes.length bytes)

/-- Translation of `consume_truncated_output` (exec.rs lines 441-501):
take both pipes (failing with the corresponding I/O error when one is
unavailable), resolve the three-way race into an exit status (synthesizing
`128 + 64` on timeout and `128 + 9` on interrupt after a successful
`start_kill`), then join the two cappers in order, propagating their I/O
errors. -/
def consume_truncated_output (child : ChildBehavior) (timeout_ms : Option Nat) :
    Except CodexErr RawExecToolCallOutput :=
  match child.stdoutPipe with
  | none => Except.error (CodexErr.Io ⟨IoErrorKind.other, "stdout pipe was unexpectedly not available"⟩)
  | some stdout_events =>
    match child.stderrPipe with
    | none => Except.error (CodexErr.Io ⟨IoErrorKind.other, "stderr pipe was unexpectedly not available"⟩)
    | some stderr_events =>
      let _timeout := effective_timeout_ms timeout_ms
      let exit_status_result : Except CodexErr ExitStatus :=
        match child.wait with
        | ChildWait.exited status => Except.ok status
        | ChildWait.waitError e => Except.error (CodexErr.Io e)
        | ChildWait.timedOut =>
          match child.startKill with
          | Except.ok _ => Except.ok (synthetic_exit_status (128 + TIMEOUT_CODE))
          | Except.error e => Except.error (CodexErr.Io e)
        | ChildWait.interrupted =>
          match child.startKill with
          | Except.ok _ => Except.ok (synthetic_exit_status (128 + SIGKILL_CODE))
          | Except.error e => Except.error (CodexErr.Io e)
      match exit_status_result with
      | Except.error e => Except.error e
      | Except.ok exit_status =>
        match read_capped stdout_events MAX_STREAM_OUTPUT MAX_STREAM_OUTPUT_LINES with
        | Except.error e => Except.error (CodexErr.Io e)
        | Except.ok stdout =>
          match read_capped stderr_events MAX_STREAM_OUTPUT MAX_STREAM_OUTPUT_LINES with
          | Except.error e => Except.error (CodexErr.Io e)
          | Except.ok stderr =>
            Except.ok ⟨exit_status, stdout, stderr⟩

/-- Translation of `exec` (exec.rs lines 325-353): reject an empty command
vector with an invalid-input I/O error before any spawn; otherwise spawn
`command[0]` with the remaining arguments and consume its output. -/
def exec (w : World) (params : ExecParams) (sandbox_policy : SandboxPolicy) :
    Except CodexErr RawExecToolCallOutput × List SpawnSpec :=
  match params.command with
  | [] => (Except.error (CodexErr.Io ⟨IoErrorKind.invalidInput, "command args are empty"⟩), [])
  | program :: args =>
    let spawned := spawn_child_async w program args none params.cwd sandbox_policy
      StdioPolicy.RedirectForShellTool params.env
    (match spawned.1 with
      | Except.error e => Except.error (CodexErr.Io e)
      | Except.ok child => consume_truncated_output child params.timeout_ms,
      spawned.2)

/-- Translation of the tail of `process_exec_tool_call` (exec.rs lines
130-168): decode the captured bytes lossily, classify a signalled exit
(signal 64 is a timeout, any other signal is `Signal(n)`), then treat any
non-zero exit code under an active sandbox as `Denied` carrying the
decoded output, and otherwise return the successful output with the
elapsed duration. -/
def finalize_raw_result (raw_output_result : Except CodexErr RawExecToolCallOutput)
    (sandbox_type : SandboxType) (duration : Nat) : Except CodexErr ExecToolCallOutput :=
  match raw_output_result with
  | Except.error err => Except.error err
  | Except.ok raw_output =>
    let stdout := from_utf8_lossy raw_output.stdout
    let stderr := from_utf8_lossy raw_output.stderr
    match raw_output.exit_status.signal with
    | some s =>
      if s = TIMEOUT_CODE then Except.error (CodexErr.Sandbox SandboxErr.Timeout)
      else Except.error (CodexErr.Sandbox (SandboxErr.Signal s))
    | none =>
      let exit_code := raw_output.exit_status.code.getD (-1)
      if exit_code ≠ 0 ∧ sandbox_type ≠ SandboxType.None then
        Except.error (CodexErr.Sandbox (SandboxErr.Denied exit_code stdout stderr))
      else
        Except.ok ⟨exit_code, stdout, stderr, duration⟩

/-- Translation of `process_exec_tool_call` (exec.rs lines 77-169):
dispatch on the sandbox selector (spawning directly, under seatbelt, or
under the Linux helper — the latter failing fast when no helper executable
was provided), then classify the raw outcome.  The spawn invocations
performed along the way are returned as the second component. -/
def process_exec_tool_call (w : World) (params : ExecParams)
    (sandbox_type : SandboxType) (sandbox_policy : SandboxPolicy)
    (codex_linux_sandbox_exe : Option String) :
    Except CodexErr ExecToolCallOutput × List SpawnSpec :=
  let raw : Except CodexErr RawExecToolCallOutput × List SpawnSpec :=
    match sandbox_type with
    | SandboxType.None => exec w params sandbox_policy
    | SandboxType.MacosSeatbelt =>
      let spawned := spawn_command_under_seatbelt w params.command sandbox_policy
        params.cwd StdioPolicy.RedirectForShellTool params.env
      (match spawned.1 with
        | Except.error e => Except.error (CodexErr.Io e)
        | Except.ok child => consume_truncated_output child params.timeout_ms,
        spawned.2)
    | SandboxType.LinuxSeccomp =>
      match codex_linux_sandbox_exe with
      | none => (Except.error CodexErr.LandlockSandboxExecutableNotProvided, [])
      | some exe =>
        let spawned := spawn_command_under_linux_sandbox w exe params.command
          sandbox_policy params.cwd StdioPolicy.RedirectForShellTool params.env
        (match spawned.1 with
          | Except.error e => Except.error (CodexErr.Io e)
          | Except.ok child => consume_truncated_output child params.timeout_ms,
          spawned.2)
  (finalize_raw_result raw.1 sandbox_type w.elapsed_ms, raw.2)

/-- Spec-side definition (§4.1, platform-A encoder), written from the
spec's words for comparison with `create_seatbelt_command_args`: the
file-read fragment permits any read when full-read is granted and is
empty otherwise. -/
def spec_file_read_fragment (sandbox_policy : SandboxPolicy) : String :=
  if sandbox_policy.has_full_disk_read_access then
    "; allow read-only file operations\n(allow file-read*)"
  else ""

/-- Spec-side definition (§4.1): the file-write fragment permits any write
under full-write; otherwise, with non-empty writable roots, it allows
writes on the subpath of parameter `WRITABLE_ROOT_{i}` for each root at
its stable index `i`; otherwise it is empty. -/
def spec_file_write_fragment (sandbox_policy : SandboxPolicy) (cwd : String) : String :=
  if sandbox_policy.has_full_disk_write_access then
    "(allow file-write* (regex #\"^/\"))"
  else
    let roots := sandbox_policy.get_writable_roots_with_cwd cwd
    if roots.isEmpty then ""
    else
      "(allow file-write*\n"
        ++ String.intercalate " "
          (roots.enum.map (fun iroot =>
            "(subpath (param \"WRITABLE_ROOT_" ++ toString iroot.1 ++ "\"))"))
        ++ "\n)"

/-- Spec-side definition (§4.1): the network fragment permits inbound,
outbound and raw sockets when full-network is granted, else is empty. -/
def spec_network_fragment (sandbox_policy : SandboxPolicy) : String :=
  if sandbox_policy.has_full_network_access then
    "(allow network-outbound)\n(allow network-inbound)\n(allow system-socket)"
  else ""

/-- Spec-side definition (§4.1): the policy text is the base policy, the
file-read fragment, the file-write fragment and the network fragment
concatenated in that fixed order. -/
def spec_seatbelt_policy_text (sandbox_policy : SandboxPolicy) (cwd : String) : String :=
  MACOS_SEATBELT_BASE_POLICY ++ "\n"
    ++ spec_file_read_fragment sandbox_policy ++ "\n"
    ++ spec_file_write_fragment sandbox_policy cwd ++ "\n"
    ++ spec_network_fragment sandbox_policy

/-- Spec-side definition (§4.1): each writable root with stable index `i`
is passed as a parameter binding `-DWRITABLE_ROOT_{i}=path`; under
full-write (or with no roots) there are no bindings. -/
def spec_seatbelt_param_bindings (sandbox_policy : SandboxPolicy) (cwd : String) :
    List String :=
  if sandbox_policy.has_full_disk_write_access then []
  else
    let roots := sandbox_policy.get_writable_roots_with_cwd cwd
    roots.enum.map (fun iroot => "-DWRITABLE_ROOT_" ++ toString iroot.1 ++ "=" ++ iroot.2)

/-- Spec-side definition (§4.1): the platform-A argv is
`["-p", policy-text] ++ param-bindings ++ ["--"] ++ command`, with the
`--` separator before the user command. -/
def spec_seatbelt_argv (command : List String) (sandbox_policy : SandboxPolicy)
    (cwd : String) : List String :=
  ["-p", spec_seatbelt_policy_text sandbox_policy cwd]
    ++ spec_seatbelt_param_bindings sandbox_policy cwd
    ++ ["--"] ++ command

/-- Concrete permissive policy for witnesses: full read, write and
network, no extra writable roots. -/
def polAll : SandboxPolicy := ⟨true, true, true, fun _ => []⟩

/-- Concrete restricted policy for witnesses: read-only disk, no network;
the writable roots are the working directory itself. -/
def polRestricted : SandboxPolicy := ⟨true, false, false, fun cwd => [cwd]⟩

/-- Child oracle for witnesses: both pipes available and immediately at
EOF, child exits with the given status before the timeout. -/
def childExiting (status : ExitStatus) : ChildBehavior :=
  ⟨some [], some [], ChildWait.exited status, Except.ok ()⟩

/-- Child oracle for witnesses: both pipes available and at EOF, the
timeout elapses before the child exits, `start_kill` succeeds. -/
def childTimingOut : ChildBehavior :=
  ⟨some [], some [], ChildWait.timedOut, Except.ok ()⟩

/-- Child oracle for witnesses: both pipes available and at EOF, the
interrupt notifier fires first, `start_kill` succeeds. -/
def childInterrupted : ChildBehavior :=
  ⟨some [], some [], ChildWait.interrupted, Except.ok ()⟩

/-- Concrete read error used by witnesses. -/
def readErr : IoError := ⟨IoErrorKind.other, "read failed"⟩

/-- Child oracle for witnesses: the stdout pipe yields one byte and then
fails; the child itself exits 0. -/
def childStdoutFailing : ChildBehavior :=
  ⟨some [ReadEvent.data [97], ReadEvent.fail readErr], some [],
    ChildWait.exited (ExitStatus.exited 0), Except.ok ()⟩

/-- Child oracle for witnesses: stdout reads cleanly to EOF, while the
stderr pipe yields one byte and then fails; the child itself exits 0. -/
def childStderrFailing : ChildBehavior :=
  ⟨some [], some [ReadEvent.data [98], ReadEvent.fail readErr],
    ChildWait.exited (ExitStatus.exited 0), Except.ok ()⟩

/-- World oracle for witnesses: every spawn yields the given child, and
the elapsed duration is reported as 7 ms. -/
def worldWith (child : ChildBehavior) : World := ⟨fun _ => Except.ok child, 7⟩

/-- Unfolding equation for the copy loop on a non-empty chunk. -/
theorem capChunk_cons (b : Nat) (bs : List Nat) (rb rl : Nat) :
    capChunk (b :: bs) rb rl =
      if rb = 0 ∨ rl = 0 then ([], rb, rl)
      else (b :: (capChunk bs (rb - 1) (if b = 10 then rl - 1 else rl)).1,
        (capChunk bs (rb - 1) (if b = 10 then rl - 1 else rl)).2) := rfl

/-- With an exhausted byte or line budget, the copy loop copies nothing
and leaves the budgets unchanged. -/
theorem capChunk_zero (l : List Nat) (rb rl : Nat) (h : rb = 0 ∨ rl = 0) :
    capChunk l rb rl = ([], rb, rl) := by
  cases l with
  | nil => rfl
  | cons b bs => rw [capChunk_cons, if_pos h]

/-- The copy loop is a homomorphism over chunk concatenation: copying a
concatenation is copying the first part and then the second under the
budgets the first part left over.  This is what makes the capper
insensitive to how the stream is cut into read chunks. -/
theorem capChunk_append (l1 l2 : List Nat) (rb rl : Nat) :
    capChunk (l1 ++ l2) rb rl =
      ((capChunk l1 rb rl).1
          ++ (capChunk l2 (capChunk l1 rb rl).2.1 (capChunk l1 rb rl).2.2).1,
        (capChunk l2 (capChunk l1 rb rl).2.1 (capChunk l1 rb rl).2.2).2) := by
  induction l1 generalizing rb rl with
  | nil => simp [capChunk]
  | cons b bs ih =>
    by_cases h : rb = 0 ∨ rl = 0
    · rw [List.cons_append]
      rw [capChunk_zero (b :: (bs ++ l2)) rb rl h, capChunk_zero (b :: bs) rb rl h]
      rw [capChunk_zero l2 rb rl h]
      simp
    · rw [List.cons_append, capChunk_cons b (bs ++ l2) rb rl, if_neg h,
        capChunk_cons b bs rb rl, if_neg h]
      simp only [ih]
      simp

/-- The copy loop copies at most `rb` bytes. -/
theorem capChunk_length_le (l : List Nat) (rb rl : Nat) :
    (capChunk l rb rl).1.length ≤ rb := by
  induction l generalizing rb rl with
  | nil => simp [capChunk]
  | cons b bs ih =>
    by_cases h : rb = 0 ∨ rl = 0
    · rw [capChunk_zero (b :: bs) rb rl h]; simp
    · rw [capChunk_cons, if_neg h]
      have hrb : rb ≠ 0 := fun hc => h (Or.inl hc)
      have := ih (rb - 1) (if b = 10 then rl - 1 else rl)
      simp only [List.length_cons]
      omega

/-- The copy loop copies at most `rl` newline bytes. -/
theorem capChunk_count_le (l : List Nat) (rb rl : Nat) :
    (capChunk l rb rl).1.count 10 ≤ rl := by
  induction l generalizing rb rl with
  | nil => simp [capChunk]
  | cons b bs ih =>
    by_cases h : rb = 0 ∨ rl = 0
    · rw [capChunk_zero (b :: bs) rb rl h]; simp
    · rw [capChunk_cons, if_neg h]
      have hrl : rl ≠ 0 := fun hc => h (Or.inr hc)
      by_cases hb : b = 10
      · subst hb
        rw [if_pos rfl]
        have := ih (rb - 1) (rl - 1)
        rw [List.count_cons_self]
        omega
      · rw [if_neg hb]
        have := ih (rb - 1) rl
        have hne : (10 : Nat) ≠ b := fun hc => hb hc.symm
        rw [List.count_cons_of_ne hne]
        exact this

/-- The copy loop copies a contiguous leading portion of its chunk. -/
theorem capChunk_split (l : List Nat) (rb rl : Nat) :
    ∃ t, l = (capChunk l rb rl).1 ++ t := by
  induction l generalizing rb rl with
  | nil => exact ⟨[], rfl⟩
  | cons b bs ih =>
    by_cases h : rb = 0 ∨ rl = 0
    · exact ⟨b :: bs, by rw [capChunk_zero (b :: bs) rb rl h]; rfl⟩
    · rw [capChunk_cons, if_neg h]
      obtain ⟨t, ht⟩ := ih (rb - 1) (if b = 10 then rl - 1 else rl)
      exact ⟨t, by simpa using congrArg (b :: ·) ht⟩

/-- The copy loop stops only at the end of its chunk or when it has
exhausted one of the two budgets. -/
theorem capChunk_all_or_stop (l : List Nat) (rb rl : Nat) :
    (capChunk l rb rl).1 = l ∨ ((capChunk l rb rl).2.1 = 0 ∨ (capChunk l rb rl).2.2 = 0) := by
  induction l generalizing rb rl with
  | nil => exact Or.inl rfl
  | cons b bs ih =>
    by_cases h : rb = 0 ∨ rl = 0
    · rw [capChunk_zero (b :: bs) rb rl h]
      exact Or.inr h
    · rw [capChunk_cons, if_neg h]
      rcases ih (rb - 1) (if b = 10 then rl - 1 else rl) with hall | hstop
      · exact Or.inl (by simp [hall])
      · exact Or.inr hstop

/-- Unfolding equation for the read loop on a data event. -/
theorem read_capped_go_data (c : List Nat) (rest : List ReadEvent) (buf : List Nat)
    (rb rl : Nat) :
    read_capped_go (ReadEvent.data c :: rest) buf rb rl =
      if c.length = 0 then Except.ok buf
      else if 0 < rb ∧ 0 < rl then
        read_capped_go rest (buf ++ (capChunk c rb rl).1) (capChunk c rb rl).2.1
          (capChunk c rb rl).2.2
      else read_capped_go rest buf rb rl := rfl

/-- Once a budget is exhausted, the read loop keeps consuming events but
never extends the buffer. -/
theorem read_capped_go_zero (ev : List ReadEvent) (buf : List Nat) (rb rl : Nat)
    (h : rb = 0 ∨ rl = 0) (out : List Nat)
    (hok : read_capped_go ev buf rb rl = Except.ok out) : out = buf := by
  induction ev generalizing buf with
  | nil =>
    simp only [read_capped_go] at hok
    exact (Except.ok.injEq _ _).mp hok.symm
  | cons e rest ih =>
    cases e with
    | fail e0 => simp [read_capped_go] at hok
    | data c =>
      rw [read_capped_go_data] at hok
      by_cases hc : c.length = 0
      · rw [if_pos hc] at hok
        exact (Except.ok.injEq _ _).mp hok.symm
      · rw [if_neg hc, if_neg (by omega)] at hok
        exact ih buf hok

/-- On a well-formed event list the read loop succeeds and its result is
exactly the budgeted copy of the flattened stream: the capper is
insensitive to chunk boundaries, and a byte is retained iff both budgets
are strictly positive when that byte is inspected. -/
theorem read_capped_go_wellFormed (ev : List ReadEvent) (buf : List Nat) (rb rl : Nat)
    (h : wellFormed ev = true) :
    read_capped_go ev buf rb rl = Except.ok (buf ++ (capChunk (flattenEvents ev) rb rl).1) := by
  induction ev generalizing buf rb rl with
  | nil => simp [read_capped_go, flattenEvents, capChunk]
  | cons e rest ih =>
    cases e with
    | fail e0 => simp [wellFormed] at h
    | data c =>
      have hc : ¬c.length = 0 := by
        simp [wellFormed, List.isEmpty_iff] at h
        rcases h with ⟨h1, _⟩
        simpa [List.length_eq_zero] using h1
      have hrest : wellFormed rest = true := by
        simp [wellFormed] at h ⊢
        exact h.2
      rw [read_capped_go_data, if_neg hc]
      have hflat : flattenEvents (ReadEvent.data c :: rest) = c ++ flattenEvents rest := rfl
      by_cases hb : 0 < rb ∧ 0 < rl
      · rw [if_pos hb, ih _ _ _ hrest]
        rw [hflat, capChunk_append]
        simp
      · rw [if_neg hb, ih _ _ _ hrest]
        have hz : rb = 0 ∨ rl = 0 := by omega
        rw [hflat, capChunk_append, capChunk_zero c rb rl hz]
        simp

/-- Whatever the event list, a successful read returns a prefix of the
flattened stream. -/
theorem read_capped_go_split (ev : List ReadEvent) (buf : List Nat) (rb rl : Nat)
    (out : List Nat) (hok : read_capped_go ev buf rb rl = Except.ok out) :
    ∃ t u, out = buf ++ t ∧ flattenEvents ev = t ++ u := by
  induction ev generalizing buf rb rl with
  | nil =>
    simp only [read_capped_go] at hok
    exact ⟨[], [], by simp [(Except.ok.injEq _ _).mp hok.symm], rfl⟩
  | cons e rest ih =>
    cases e with
    | fail e0 => simp [read_capped_go] at hok
    | data c =>
      have hflat : flattenEvents (ReadEvent.data c :: rest) = c ++ flattenEvents rest := rfl
      rw [read_capped_go_data] at hok
      by_cases hc : c.length = 0
      · rw [if_pos hc] at hok
        refine ⟨[], c ++ flattenEvents rest, ?_, by simp [hflat]⟩
        simp [(Except.ok.injEq _ _).mp hok.symm]
      · by_cases hb : 0 < rb ∧ 0 < rl
        · rw [if_neg hc, if_pos hb] at hok
          obtain ⟨t1, u1, hout, hrest⟩ := ih _ _ _ hok
          rcases capChunk_all_or_stop c rb rl with hall | hstop
          · refine ⟨c ++ t1, u1, ?_, by simp [hflat, hrest]⟩
            rw [hout, hall]
            simp
          · have hz := read_capped_go_zero rest _ _ _ hstop out hok
            obtain ⟨s, hs⟩ := capChunk_split c rb rl
            refine ⟨(capChunk c rb rl).1, s ++ flattenEvents rest, by simp [hz], ?_⟩
            rw [hflat]
            conv_lhs => rw [hs]
            rw [List.append_assoc]
        · rw [if_neg hc, if_neg hb] at hok
          have hz : rb = 0 ∨ rl = 0 := by omega
          have := read_capped_go_zero rest buf rb rl hz out hok
          exact ⟨[], c ++ flattenEvents rest, by simp [this], by simp [hflat]⟩

/-- A failing read reached after well-formed reads aborts the loop with
that error, discarding everything accumulated so far. -/
theorem read_capped_go_fail (pre : List ReadEvent) (e : IoError) (rest : List ReadEvent)
    (buf : List Nat) (rb rl : Nat) (h : wellFormed pre = true) :
    read_capped_go (pre ++ ReadEvent.fail e :: rest) buf rb rl = Except.error e := by
  induction pre generalizing buf rb rl with
  | nil => simp [read_capped_go]
  | cons ev pre1 ih =>
    cases ev with
    | fail e0 => simp [wellFormed] at h
    | data c =>
      have hc : ¬c.length = 0 := by
        simp [wellFormed, List.isEmpty_iff] at h
        rcases h with ⟨h1, _⟩
        simpa [List.length_eq_zero] using h1
      have hpre : wellFormed pre1 = true := by
        simp [wellFormed] at h ⊢
        exact h.2
      rw [List.cons_append, read_capped_go_data, if_neg hc]
      by_cases hb : 0 < rb ∧ 0 < rl
      · rw [if_pos hb]; exact ih _ _ _ hpre
      · rw [if_neg hb]; exact ih _ _ _ hpre

/-- When both pipes are available, the child exits within the timeout and
both cappers succeed, the raw outcome carries the child's own exit status
and the two capped buffers. -/
theorem consume_ok (child : ChildBehavior) (t : Option Nat) (oc ec : List ReadEvent)
    (st : ExitStatus) (ob eb : List Nat)
    (ho : child.stdoutPipe = some oc) (he : child.stderrPipe = some ec)
    (hw : child.wait = ChildWait.exited st)
    (hro : read_capped oc MAX_STREAM_OUTPUT MAX_STREAM_OUTPUT_LINES = Except.ok ob)
    (hre : read_capped ec MAX_STREAM_OUTPUT MAX_STREAM_OUTPUT_LINES = Except.ok eb) :
    consume_truncated_output child t = Except.ok ⟨st, ob, eb⟩ := by
  simp [consume_truncated_output, ho, he, hw, hro, hre]

/-- When the timeout branch of the select wins and `start_kill` succeeds,
the raw outcome carries the synthetic `128 + 64` status. -/
theorem consume_timedOut (child : ChildBehavior) (t : Option Nat) (oc ec : List ReadEvent)
    (ob eb : List Nat)
    (ho : child.stdoutPipe = some oc) (he : child.stderrPipe = some ec)
    (hw : child.wait = ChildWait.timedOut) (hk : child.startKill = Except.ok ())
    (hro : read_capped oc MAX_STREAM_OUTPUT MAX_STREAM_OUTPUT_LINES = Except.ok ob)
    (hre : read_capped ec MAX_STREAM_OUTPUT MAX_STREAM_OUTPUT_LINES = Except.ok eb) :
    consume_truncated_output child t =
      Except.ok ⟨synthetic_exit_status (128 + TIMEOUT_CODE), ob, eb⟩ := by
  simp [consume_truncated_output, ho, he, hw, hk, hro, hre]

/-- When the interrupt branch of the select wins and `start_kill`
succeeds, the raw outcome carries the synthetic `128 + 9` status. -/
theorem consume_interrupted (child : ChildBehavior) (t : Option Nat) (oc ec : List ReadEvent)
    (ob eb : List Nat)
    (ho : child.stdoutPipe = some oc) (he : child.stderrPipe = some ec)
    (hw : child.wait = ChildWait.interrupted) (hk : child.startKill = Except.ok ())
    (hro : read_capped oc MAX_STREAM_OUTPUT MAX_STREAM_OUTPUT_LINES = Except.ok ob)
    (hre : read_capped ec MAX_STREAM_OUTPUT MAX_STREAM_OUTPUT_LINES = Except.ok eb) :
    consume_truncated_output child t =
      Except.ok ⟨synthetic_exit_status (128 + SIGKILL_CODE), ob, eb⟩ := by
  simp [consume_truncated_output, ho, he, hw, hk, hro, hre]

/-- A failed stdout capper turns the whole consumption into that I/O
error; nothing of the captured bytes survives in the result. -/
theorem consume_stdout_read_error (child : ChildBehavior) (t : Option Nat)
    (oc ec : List ReadEvent) (st : ExitStatus) (e : IoError)
    (ho : child.stdoutPipe = some oc) (he : child.stderrPipe = some ec)
    (hw : child.wait = ChildWait.exited st)
    (hro : read_capped oc MAX_STREAM_OUTPUT MAX_STREAM_OUTPUT_LINES = Except.error e) :
    consume_truncated_output child t = Except.error (CodexErr.Io e) := by
  simp [consume_truncated_output, ho, he, hw, hro]

/-- A failed stderr capper, joined after a successful stdout capper,
likewise turns the whole consumption into that I/O error; neither
stream's captured bytes survive in the result. -/
theorem consume_stderr_read_error (child : ChildBehavior) (t : Option Nat)
    (oc ec : List ReadEvent) (st : ExitStatus) (ob : List Nat) (e : IoError)
    (ho : child.stdoutPipe = some oc) (he : child.stderrPipe = some ec)
    (hw : child.wait = ChildWait.exited st)
    (hro : read_capped oc MAX_STREAM_OUTPUT MAX_STREAM_OUTPUT_LINES = Except.ok ob)
    (hre : read_capped ec MAX_STREAM_OUTPUT MAX_STREAM_OUTPUT_LINES = Except.error e) :
    consume_truncated_output child t = Except.error (CodexErr.Io e) := by
  simp [consume_truncated_output, ho, he, hw, hro, hre]

/-- Replacing the binding of `k` makes `k` look up to the new value and
leaves every other name's lookup unchanged. -/
theorem envLookup_env_with_var (env : List (String × String)) (k v q : String) :
    envLookup (env_with_var env k v) q = if q = k then some v else envLookup env q := by
  induction env with
  | nil =>
    by_cases hqk : q = k
    · simp [envLookup, env_with_var, List.find?, hqk]
    · have hkq : (k == q) = false := by
        rw [beq_eq_false_iff_ne]
        exact fun hc => hqk hc.symm
      simp [envLookup, env_with_var, List.find?, hkq, hqk]
  | cons p tl ih =>
    obtain ⟨a, b⟩ := p
    by_cases hak : a = k
    · have hfilter : env_with_var ((a, b) :: tl) k v = env_with_var tl k v := by
        simp [env_with_var, List.filter, hak]
      rw [hfilter, ih]
      by_cases hqk : q = k
      · simp [hqk]
      · have haq : (a == q) = false := by
          rw [beq_eq_false_iff_ne, hak]
          exact fun hc => hqk hc.symm
        simp [hqk, envLookup, List.find?, haq]
    · have haknot : (a == k) = false := by
        rw [beq_eq_false_iff_ne]; exact hak
      have hfilter : env_with_var ((a, b) :: tl) k v = (a, b) :: env_with_var tl k v := by
        simp [env_with_var, List.filter, haknot]
      rw [hfilter]
      by_cases haq : a = q
      · have hqk : ¬q = k := fun hc => hak (haq.trans hc)
        have haqb : (a == q) = true := by rw [beq_iff_eq]; exact haq
        simp [envLookup, List.find?, haqb, hqk]
      · have haqb : (a == q) = false := by
          rw [beq_eq_false_iff_ne]; exact haq
        simp only [envLookup, List.find?, haqb]
        simp only [envLookup] at ih
        rw [ih]

/-- The environment handed to the child binds the marker to "1" exactly
when network is disallowed and otherwise looks up exactly as the caller's
environment does. -/
theorem envLookup_child_env (pol : SandboxPolicy) (env : List (String × String)) (k : String) :
    envLookup (child_env pol env) k =
      if pol.has_full_network_access = false ∧ k = CODEX_SANDBOX_NETWORK_DISABLED_ENV_VAR
      then some "1" else envLookup env k := by
  unfold child_env
  by_cases h : pol.has_full_network_access
  · simp [h]
  · have hfalse : pol.has_full_network_access = false := by
      simpa using h
    rw [if_neg (by simp [h]), envLookup_env_with_var]
    by_cases hk : k = CODEX_SANDBOX_NETWORK_DISABLED_ENV_VAR
    · simp [hk, hfalse]
    · simp [hk, hfalse]

/-- Under a spawn oracle that hands back `child`, a non-empty command and
(for the Linux selector) a provided helper, the final result is exactly
the classification of the consumed output. -/
theorem process_fst_eq (w : World) (child : ChildBehavior) (params : ExecParams)
    (pol : SandboxPolicy) (exe : Option String) (st : SandboxType)
    (hspawn : ∀ s, w.spawn s = Except.ok child)
    (hcmd : params.command ≠ [])
    (hexe : st = SandboxType.LinuxSeccomp → exe ≠ none) :
    (process_exec_tool_call w params st pol exe).1 =
      finalize_raw_result (consume_truncated_output child params.timeout_ms) st
        w.elapsed_ms := by
  cases st with
  | None =>
    rcases hc : params.command with _ | ⟨p, args⟩
    · exact absurd hc hcmd
    · simp [process_exec_tool_call, exec, hc, spawn_child_async, hspawn]
  | MacosSeatbelt =>
    simp [process_exec_tool_call, spawn_command_under_seatbelt, spawn_child_async, hspawn]
  | LinuxSeccomp =>
    rcases he : exe with _ | e
    · exact absurd he (hexe rfl)
    · simp [process_exec_tool_call, he, spawn_command_under_linux_sandbox,
        spawn_child_async, hspawn]

/-- Every spawn recorded by a call carries the redirected stdio policy,
the caller's working directory, and the scrubbed child environment built
from the caller-supplied variables and the policy. -/
theorem process_trace_shape (w : World) (params : ExecParams) (st : SandboxType)
    (pol : SandboxPolicy) (exe : Option String) (spec : SpawnSpec)
    (hmem : spec ∈ (process_exec_tool_call w params st pol exe).2) :
    spec.stdio = StdioPolicy.RedirectForShellTool ∧ spec.cwd = params.cwd ∧
      spec.env = child_env pol params.env := by
  cases st with
  | None =>
    rcases hc : params.command with _ | ⟨p, args⟩
    · simp [process_exec_tool_call, exec, hc] at hmem
    · simp [process_exec_tool_call, exec, hc, spawn_child_async] at hmem
      subst hmem
      exact ⟨rfl, rfl, rfl⟩
  | MacosSeatbelt =>
    simp [process_exec_tool_call, spawn_command_under_seatbelt, spawn_child_async] at hmem
    subst hmem
    exact ⟨rfl, rfl, rfl⟩
  | LinuxSeccomp =>
    rcases he : exe with _ | e
    · simp [process_exec_tool_call, he] at hmem
    · simp [process_exec_tool_call, he, spawn_command_under_linux_sandbox,
        spawn_child_async] at hmem
      subst hmem
      exact ⟨rfl, rfl, rfl⟩

/-- C6: for every sandbox policy, cwd and command, the platform-A
(seatbelt) argv is exactly `["-p", policy-text, param-bindings..., "--",
command...]`, where the policy text concatenates the embedded base
policy, the file-read fragment, the file-write fragment and the network
fragment in that fixed order, each writable root with stable index `i` is
bound via `-DWRITABLE_ROOT_{i}=path`, and the `--` separator precedes the
user command. -/
theorem c6_seatbelt_argv (command : List String) (pol : SandboxPolicy) (cwd : String) :
    create_seatbelt_command_args command pol cwd = spec_seatbelt_argv command pol cwd := by
  unfold create_seatbelt_command_args spec_seatbelt_argv spec_seatbelt_policy_text
    spec_file_read_fragment spec_file_write_fragment spec_network_fragment
    spec_seatbelt_param_bindings
  by_cases hw : pol.has_full_disk_write_access
  · simp [hw]
  · simp only [hw, Bool.false_eq_true, if_false, ite_false]
    rcases hr : pol.get_writable_roots_with_cwd cwd with _ | ⟨r, rs⟩
    · simp [hr]
    · simp only [hr, List.unzip_eq_map, List.map_map, List.isEmpty_cons,
        List.isEmpty_eq_true]
      simp [List.enum_cons, Function.comp]
      exact ⟨rfl, rfl, fun a b _ => rfl⟩

/-- C7: with the Linux helper selector and no helper executable supplied,
the call fails with the `LandlockSandboxExecutableNotProvided`
configuration error and no child process is spawned. -/
theorem c7_helper_not_provided (w : World) (params : ExecParams) (pol : SandboxPolicy) :
    process_exec_tool_call w params SandboxType.LinuxSeccomp pol none =
      (Except.error CodexErr.LandlockSandboxExecutableNotProvided, []) := rfl

/-- C2: on any well-formed input stream the capper succeeds — it keeps
consuming to EOF even after the caps are hit — and the captured buffer
holds at most 10240 bytes and at most 256 newline bytes; moreover the
buffer equals the single-pass budgeted copy of the flattened stream, so a
byte is included iff both budgets were strictly positive when the byte
was inspected (in particular a trailing newline that exhausts the line
budget is included and everything after it is excluded). -/
theorem c2_output_caps (events : List ReadEvent) (h : wellFormed events = true) :
    ∃ buf, read_capped events MAX_STREAM_OUTPUT MAX_STREAM_OUTPUT_LINES = Except.ok buf
      ∧ buf.length ≤ 10240 ∧ buf.count 10 ≤ 256
      ∧ buf = (capChunk (flattenEvents events) MAX_STREAM_OUTPUT MAX_STREAM_OUTPUT_LINES).1 := by
  refine ⟨(capChunk (flattenEvents events) MAX_STREAM_OUTPUT MAX_STREAM_OUTPUT_LINES).1,
    ?_, ?_, ?_, rfl⟩
  · have := read_capped_go_wellFormed events [] MAX_STREAM_OUTPUT MAX_STREAM_OUTPUT_LINES h
    simpa [read_capped] using this
  · exact capChunk_length_le _ _ _
  · exact capChunk_count_le _ _ _

/-- Witness for C2 at a concrete stream: three reads, 300 newlines in
all, exceeding the line budget. -/
theorem c2_output_caps_witness :
    wellFormed [ReadEvent.data (List.replicate 200 10), ReadEvent.data [104, 105],
        ReadEvent.data (List.replicate 100 10)] = true
      ∧ ∃ buf, read_capped [ReadEvent.data (List.replicate 200 10), ReadEvent.data [104, 105],
            ReadEvent.data (List.replicate 100 10)] MAX_STREAM_OUTPUT MAX_STREAM_OUTPUT_LINES
            = Except.ok buf
          ∧ buf.length ≤ 10240 ∧ buf.count 10 ≤ 256
          ∧ buf = (capChunk (flattenEvents [ReadEvent.data (List.replicate 200 10),
              ReadEvent.data [104, 105], ReadEvent.data (List.replicate 100 10)])
              MAX_STREAM_OUTPUT MAX_STREAM_OUTPUT_LINES).1 :=
  ⟨by decide, c2_output_caps _ (by decide)⟩

/-- C9: whatever the stream and the two budgets, a successful capper run
returns a byte-for-byte prefix of the stream's full contents — once a
budget reaches zero nothing further is appended, and within each chunk
only a contiguous leading portion is copied. -/
theorem c9_capped_is_prefix_of_stream (events : List ReadEvent) (max_output max_lines : Nat)
    (buf : List Nat)
    (h : read_capped events max_output max_lines = Except.ok buf) :
    ∃ t, flattenEvents events = buf ++ t := by
  obtain ⟨t, u, hout, hflat⟩ :=
    read_capped_go_split events [] max_output max_lines buf (by simpa [read_capped] using h)
  refine ⟨u, ?_⟩
  rw [hflat, hout]
  simp

/-- Witness for C9 at a concrete stream: budgets 2 bytes / 1 line, stream
`[1, 2, 3]` split over two reads, captured prefix `[1, 2]`. -/
theorem c9_capped_is_prefix_of_stream_witness :
    read_capped [ReadEvent.data [1, 2], ReadEvent.data [3]] 2 1 = Except.ok [1, 2]
      ∧ ∃ t, flattenEvents [ReadEvent.data [1, 2], ReadEvent.data [3]] = [1, 2] ++ t :=
  ⟨rfl, c9_capped_is_prefix_of_stream _ 2 1 _ rfl⟩

/-- C1: when the child exits without a signal with code `c`, a non-zero
`c` under an active sandbox selector yields `Sandbox(Denied{c, stdout,
stderr})` carrying the captured (lossily decoded) output, while under
selector `None` the same exit yields `Ok` with `exit_code = c`, including
non-zero `c`. -/
theorem c1_denied_vs_ok (w : World) (child : ChildBehavior) (params : ExecParams)
    (pol : SandboxPolicy) (exe : Option String) (c : Int) (oc ec : List ReadEvent)
    (ob eb : List Nat)
    (hspawn : ∀ s, w.spawn s = Except.ok child)
    (ho : child.stdoutPipe = some oc) (he : child.stderrPipe = some ec)
    (hw : child.wait = ChildWait.exited (ExitStatus.exited c))
    (hro : read_capped oc MAX_STREAM_OUTPUT MAX_STREAM_OUTPUT_LINES = Except.ok ob)
    (hre : read_capped ec MAX_STREAM_OUTPUT MAX_STREAM_OUTPUT_LINES = Except.ok eb)
    (hcmd : params.command ≠ []) :
    (∀ st, st ≠ SandboxType.None → (st = SandboxType.LinuxSeccomp → exe ≠ none) →
        c ≠ 0 →
        (process_exec_tool_call w params st pol exe).1 =
          Except.error (CodexErr.Sandbox
            (SandboxErr.Denied c (from_utf8_lossy ob) (from_utf8_lossy eb))))
    ∧ (process_exec_tool_call w params SandboxType.None pol exe).1 =
        Except.ok ⟨c, from_utf8_lossy ob, from_utf8_lossy eb, w.elapsed_ms⟩ := by
  have hcons := consume_ok child params.timeout_ms oc ec (ExitStatus.exited c) ob eb
    ho he hw hro hre
  constructor
  · intro st hst hexe hc
    rw [process_fst_eq w child params pol exe st hspawn hcmd hexe, hcons]
    simp [finalize_raw_result, ExitStatus.signal, ExitStatus.code, hc, hst]
  · rw [process_fst_eq w child params pol exe SandboxType.None hspawn hcmd
      (fun hcon => nomatch hcon), hcons]
    simp [finalize_raw_result, ExitStatus.signal, ExitStatus.code]

/-- Witness for C1: a child exiting 1 is classified `Denied` under the
seatbelt selector and `Ok{code=1}` under selector `None`. -/
theorem c1_denied_vs_ok_witness :
    (process_exec_tool_call (worldWith (childExiting (ExitStatus.exited 1)))
        ⟨["/bin/false"], "/tmp", none, []⟩ SandboxType.MacosSeatbelt polAll (some "/s")).1 =
      Except.error (CodexErr.Sandbox
        (SandboxErr.Denied 1 (from_utf8_lossy []) (from_utf8_lossy [])))
    ∧ (process_exec_tool_call (worldWith (childExiting (ExitStatus.exited 1)))
        ⟨["/bin/false"], "/tmp", none, []⟩ SandboxType.None polAll (some "/s")).1 =
      Except.ok ⟨1, from_utf8_lossy [], from_utf8_lossy [],
        (worldWith (childExiting (ExitStatus.exited 1))).elapsed_ms⟩ := by
  have h := c1_denied_vs_ok (worldWith (childExiting (ExitStatus.exited 1)))
    (childExiting (ExitStatus.exited 1)) ⟨["/bin/false"], "/tmp", none, []⟩ polAll
    (some "/s") 1 [] [] [] [] (fun s => rfl) rfl rfl rfl rfl rfl (by decide)
  exact ⟨h.1 SandboxType.MacosSeatbelt (by decide) (by decide) (by decide), h.2⟩

/-- C10: signal classification applies even with no sandbox: under
selector `None`, a child terminated by signal `n` produces the error
`Sandbox(Signal(n))` — or `Sandbox(Timeout)` when `n = 64` — never an
`Ok` result. -/
theorem c10_signal_classified_without_sandbox (w : World) (child : ChildBehavior)
    (params : ExecParams) (pol : SandboxPolicy) (exe : Option String) (n : Int)
    (oc ec : List ReadEvent) (ob eb : List Nat)
    (hspawn : ∀ s, w.spawn s = Except.ok child)
    (ho : child.stdoutPipe = some oc) (he : child.stderrPipe = some ec)
    (hw : child.wait = ChildWait.exited (ExitStatus.signaled n))
    (hro : read_capped oc MAX_STREAM_OUTPUT MAX_STREAM_OUTPUT_LINES = Except.ok ob)
    (hre : read_capped ec MAX_STREAM_OUTPUT MAX_STREAM_OUTPUT_LINES = Except.ok eb)
    (hcmd : params.command ≠ []) :
    (process_exec_tool_call w params SandboxType.None pol exe).1 =
      Except.error (CodexErr.Sandbox
        (if n = TIMEOUT_CODE then SandboxErr.Timeout else SandboxErr.Signal n)) := by
  have hcons := consume_ok child params.timeout_ms oc ec (ExitStatus.signaled n) ob eb
    ho he hw hro hre
  rw [process_fst_eq w child params pol exe SandboxType.None hspawn hcmd
    (fun hcon => nomatch hcon), hcons]
  by_cases hn : n = TIMEOUT_CODE
  · simp [finalize_raw_result, ExitStatus.signal, hn]
  · simp [finalize_raw_result, ExitStatus.signal, hn]

/-- Witness for C10: signal 15 yields `Sandbox(Signal(15))` and signal 64
yields `Sandbox(Timeout)`, both under selector `None`. -/
theorem c10_signal_classified_without_sandbox_witness :
    (process_exec_tool_call (worldWith (childExiting (ExitStatus.signaled 15)))
        ⟨["/bin/sh"], "/", none, []⟩ SandboxType.None polAll none).1 =
      Except.error (CodexErr.Sandbox (SandboxErr.Signal 15))
    ∧ (process_exec_tool_call (worldWith (childExiting (ExitStatus.signaled 64)))
        ⟨["/bin/sh"], "/", none, []⟩ SandboxType.None polAll none).1 =
      Except.error (CodexErr.Sandbox SandboxErr.Timeout) := by
  constructor
  · have h := c10_signal_classified_without_sandbox
      (worldWith (childExiting (ExitStatus.signaled 15)))
      (childExiting (ExitStatus.signaled 15)) ⟨["/bin/sh"], "/", none, []⟩ polAll none 15
      [] [] [] [] (fun s => rfl) rfl rfl rfl rfl rfl (by decide)
    simpa using h
  · have h := c10_signal_classified_without_sandbox
      (worldWith (childExiting (ExitStatus.signaled 64)))
      (childExiting (ExitStatus.signaled 64)) ⟨["/bin/sh"], "/", none, []⟩ polAll none 64
      [] [] [] [] (fun s => rfl) rfl rfl rfl rfl rfl (by decide)
    simpa using h

/-- C5: when the wall-clock timeout (the caller's value, else the 10000 ms
default) elapses first, a kill is requested and the exit status is
synthesized from the raw value `128 + 64`, making the final result
`Sandbox(Timeout)`; when the interrupt notifier fires first, the status is
synthesized from `128 + 9` and the final result is `Sandbox(Signal(9))`. -/
theorem c5_timeout_and_interrupt (wT wI : World) (childT childI : ChildBehavior)
    (params : ExecParams) (pol : SandboxPolicy) (exe : Option String) (st : SandboxType)
    (oc ec : List ReadEvent) (ob eb : List Nat)
    (hspawnT : ∀ s, wT.spawn s = Except.ok childT)
    (hspawnI : ∀ s, wI.spawn s = Except.ok childI)
    (hoT : childT.stdoutPipe = some oc) (heT : childT.stderrPipe = some ec)
    (hoI : childI.stdoutPipe = some oc) (heI : childI.stderrPipe = some ec)
    (hwT : childT.wait = ChildWait.timedOut) (hkT : childT.startKill = Except.ok ())
    (hwI : childI.wait = ChildWait.interrupted) (hkI : childI.startKill = Except.ok ())
    (hro : read_capped oc MAX_STREAM_OUTPUT MAX_STREAM_OUTPUT_LINES = Except.ok ob)
    (hre : read_capped ec MAX_STREAM_OUTPUT MAX_STREAM_OUTPUT_LINES = Except.ok eb)
    (hcmd : params.command ≠ [])
    (hexe : st = SandboxType.LinuxSeccomp → exe ≠ none) :
    consume_truncated_output childT params.timeout_ms =
        Except.ok ⟨synthetic_exit_status (128 + TIMEOUT_CODE), ob, eb⟩
    ∧ synthetic_exit_status (128 + TIMEOUT_CODE) = ExitStatus.signaled 64
    ∧ (process_exec_tool_call wT params st pol exe).1 =
        Except.error (CodexErr.Sandbox SandboxErr.Timeout)
    ∧ consume_truncated_output childI params.timeout_ms =
        Except.ok ⟨synthetic_exit_status (128 + SIGKILL_CODE), ob, eb⟩
    ∧ synthetic_exit_status (128 + SIGKILL_CODE) = ExitStatus.signaled 9
    ∧ (process_exec_tool_call wI params st pol exe).1 =
        Except.error (CodexErr.Sandbox (SandboxErr.Signal 9))
    ∧ effective_timeout_ms none = 10000
    ∧ (∀ t, effective_timeout_ms (some t) = t) := by
  have hT := consume_timedOut childT params.timeout_ms oc ec ob eb hoT heT hwT hkT hro hre
  have hI := consume_interrupted childI params.timeout_ms oc ec ob eb hoI heI hwI hkI hro hre
  have hsynT : synthetic_exit_status (128 + TIMEOUT_CODE) = ExitStatus.signaled 64 := by
    decide
  have hsynI : synthetic_exit_status (128 + SIGKILL_CODE) = ExitStatus.signaled 9 := by
    decide
  refine ⟨hT, hsynT, ?_, hI, hsynI, ?_, rfl, fun t => rfl⟩
  · rw [process_fst_eq wT childT params pol exe st hspawnT hcmd hexe, hT, hsynT]
    simp [finalize_raw_result, ExitStatus.signal, TIMEOUT_CODE]
  · rw [process_fst_eq wI childI params pol exe st hspawnI hcmd hexe, hI, hsynI]
    simp [finalize_raw_result, ExitStatus.signal, TIMEOUT_CODE]

/-- Witness for C5: a 100 ms-timeout sleep that times out and one that is
interrupted 50 ms in, both under selector `None`. -/
theorem c5_timeout_and_interrupt_witness :
    consume_truncated_output childTimingOut (some 100) =
        Except.ok ⟨synthetic_exit_status (128 + TIMEOUT_CODE), [], []⟩
    ∧ synthetic_exit_status (128 + TIMEOUT_CODE) = ExitStatus.signaled 64
    ∧ (process_exec_tool_call (worldWith childTimingOut)
        ⟨["/bin/sleep", "5"], "/", some 100, []⟩ SandboxType.None polAll none).1 =
        Except.error (CodexErr.Sandbox SandboxErr.Timeout)
    ∧ consume_truncated_output childInterrupted (some 100) =
        Except.ok ⟨synthetic_exit_status (128 + SIGKILL_CODE), [], []⟩
    ∧ synthetic_exit_status (128 + SIGKILL_CODE) = ExitStatus.signaled 9
    ∧ (process_exec_tool_call (worldWith childInterrupted)
        ⟨["/bin/sleep", "5"], "/", some 100, []⟩ SandboxType.None polAll none).1 =
        Except.error (CodexErr.Sandbox (SandboxErr.Signal 9))
    ∧ effective_timeout_ms none = 10000
    ∧ (∀ t, effective_timeout_ms (some t) = t) :=
  c5_timeout_and_interrupt (worldWith childTimingOut) (worldWith childInterrupted)
    childTimingOut childInterrupted ⟨["/bin/sleep", "5"], "/", some 100, []⟩ polAll none
    SandboxType.None [] [] [] [] (fun s => rfl) (fun s => rfl) rfl rfl rfl rfl rfl rfl
    rfl rfl rfl rfl (by decide) (fun hcon => nomatch hcon)

/-- C8: a failing read on either output stream surfaces as an I/O error
for the whole execution, and the partial output collected on that stream
before the error (and everything else captured) is discarded — the error
result carries no output at all.  `childO` exhibits the failure on
stdout, `childE` the failure on stderr after stdout read cleanly. -/
theorem c8_read_error_surfaces (wO wE : World) (childO childE : ChildBehavior)
    (params : ExecParams) (pol : SandboxPolicy) (exe : Option String) (st : SandboxType)
    (pre preE : List ReadEvent) (e eE : IoError) (rest restE ec oc : List ReadEvent)
    (status statusE : ExitStatus) (ob : List Nat)
    (hwf : wellFormed pre = true) (hwfE : wellFormed preE = true)
    (hspawnO : ∀ s, wO.spawn s = Except.ok childO)
    (hspawnE : ∀ s, wE.spawn s = Except.ok childE)
    (hoO : childO.stdoutPipe = some (pre ++ ReadEvent.fail e :: rest))
    (heO : childO.stderrPipe = some ec)
    (hwO : childO.wait = ChildWait.exited status)
    (hoE : childE.stdoutPipe = some oc)
    (heE : childE.stderrPipe = some (preE ++ ReadEvent.fail eE :: restE))
    (hwE : childE.wait = ChildWait.exited statusE)
    (hroE : read_capped oc MAX_STREAM_OUTPUT MAX_STREAM_OUTPUT_LINES = Except.ok ob)
    (hcmd : params.command ≠ [])
    (hexe : st = SandboxType.LinuxSeccomp → exe ≠ none) :
    read_capped (pre ++ ReadEvent.fail e :: rest) MAX_STREAM_OUTPUT MAX_STREAM_OUTPUT_LINES
        = Except.error e
    ∧ consume_truncated_output childO params.timeout_ms = Except.error (CodexErr.Io e)
    ∧ (process_exec_tool_call wO params st pol exe).1 = Except.error (CodexErr.Io e)
    ∧ read_capped (preE ++ ReadEvent.fail eE :: restE) MAX_STREAM_OUTPUT
        MAX_STREAM_OUTPUT_LINES = Except.error eE
    ∧ consume_truncated_output childE params.timeout_ms = Except.error (CodexErr.Io eE)
    ∧ (process_exec_tool_call wE params st pol exe).1 = Except.error (CodexErr.Io eE) := by
  have hrc : read_capped (pre ++ ReadEvent.fail e :: rest) MAX_STREAM_OUTPUT
      MAX_STREAM_OUTPUT_LINES = Except.error e := by
    simpa [read_capped] using
      read_capped_go_fail pre e rest [] MAX_STREAM_OUTPUT MAX_STREAM_OUTPUT_LINES hwf
  have hrcE : read_capped (preE ++ ReadEvent.fail eE :: restE) MAX_STREAM_OUTPUT
      MAX_STREAM_OUTPUT_LINES = Except.error eE := by
    simpa [read_capped] using
      read_capped_go_fail preE eE restE [] MAX_STREAM_OUTPUT MAX_STREAM_OUTPUT_LINES hwfE
  have hconsO := consume_stdout_read_error childO params.timeout_ms
    (pre ++ ReadEvent.fail e :: rest) ec status e hoO heO hwO hrc
  have hconsE := consume_stderr_read_error childE params.timeout_ms
    oc (preE ++ ReadEvent.fail eE :: restE) statusE ob eE hoE heE hwE hroE hrcE
  refine ⟨hrc, hconsO, ?_, hrcE, hconsE, ?_⟩
  · rw [process_fst_eq wO childO params pol exe st hspawnO hcmd hexe, hconsO]
    rfl
  · rw [process_fst_eq wE childE params pol exe st hspawnE hcmd hexe, hconsE]
    rfl

/-- Witness for C8: a child whose stdout yields a byte and then a read
error, and a child whose stdout reads cleanly but whose stderr yields a
byte and then a read error, both exiting 0. -/
theorem c8_read_error_surfaces_witness :
    read_capped [ReadEvent.data [97], ReadEvent.fail readErr] MAX_STREAM_OUTPUT
        MAX_STREAM_OUTPUT_LINES = Except.error readErr
    ∧ consume_truncated_output childStdoutFailing none = Except.error (CodexErr.Io readErr)
    ∧ (process_exec_tool_call (worldWith childStdoutFailing)
        ⟨["/bin/echo", "hi"], "/", none, []⟩ SandboxType.None polAll none).1 =
        Except.error (CodexErr.Io readErr)
    ∧ read_capped [ReadEvent.data [98], ReadEvent.fail readErr] MAX_STREAM_OUTPUT
        MAX_STREAM_OUTPUT_LINES = Except.error readErr
    ∧ consume_truncated_output childStderrFailing none = Except.error (CodexErr.Io readErr)
    ∧ (process_exec_tool_call (worldWith childStderrFailing)
        ⟨["/bin/echo", "hi"], "/", none, []⟩ SandboxType.None polAll none).1 =
        Except.error (CodexErr.Io readErr) := by
  have h := c8_read_error_surfaces (worldWith childStdoutFailing)
    (worldWith childStderrFailing) childStdoutFailing childStderrFailing
    ⟨["/bin/echo", "hi"], "/", none, []⟩ polAll none SandboxType.None
    [ReadEvent.data [97]] [ReadEvent.data [98]] readErr readErr [] [] [] []
    (ExitStatus.exited 0) (ExitStatus.exited 0) [] (by decide) (by decide)
    (fun s => rfl) (fun s => rfl) rfl rfl rfl rfl rfl rfl rfl (by decide)
    (fun hcon => nomatch hcon)
  simpa using h

/-- Counterexample to C3 as stated: with the seatbelt selector and an
empty command vector the call does not fail with an invalid-input I/O
error — the seatbelt executable is spawned (the spawn trace is non-empty)
and, the child exiting 0, the call even returns `Ok`. -/
theorem c3_counterexample :
    (process_exec_tool_call (worldWith (childExiting (ExitStatus.exited 0)))
        ⟨[], "/", none, []⟩ SandboxType.MacosSeatbelt polAll none).1 =
      Except.ok ⟨0, "", "", 7⟩
    ∧ (process_exec_tool_call (worldWith (childExiting (ExitStatus.exited 0)))
        ⟨[], "/", none, []⟩ SandboxType.MacosSeatbelt polAll none).2 ≠ [] :=
  ⟨rfl, fun hcon => nomatch hcon⟩

/-- C3 amended: only selector `None` checks for an empty command vector,
failing with `IO(InvalidInput)` before any spawn; under the seatbelt and
Linux-helper selectors no such check occurs, and the sandbox executable
(resp. helper) is spawned with the assembled sandbox argv whose user
command part after `--` is empty. -/
theorem c3_empty_command_amended :
    (∀ (w : World) (cwd : String) (tms : Option Nat) (env : List (String × String))
        (pol : SandboxPolicy) (exe : Option String),
      process_exec_tool_call w ⟨[], cwd, tms, env⟩ SandboxType.None pol exe =
        (Except.error (CodexErr.Io ⟨IoErrorKind.invalidInput, "command args are empty"⟩),
          []))
    ∧ (∀ (w : World) (cwd : String) (tms : Option Nat) (env : List (String × String))
        (pol : SandboxPolicy) (exe : Option String),
      (process_exec_tool_call w ⟨[], cwd, tms, env⟩ SandboxType.MacosSeatbelt pol exe).2 =
        [⟨MACOS_PATH_TO_SEATBELT_EXECUTABLE, create_seatbelt_command_args [] pol cwd,
          MACOS_PATH_TO_SEATBELT_EXECUTABLE, cwd, StdioPolicy.RedirectForShellTool,
          child_env pol env⟩])
    ∧ (∀ (w : World) (cwd : String) (tms : Option Nat) (env : List (String × String))
        (pol : SandboxPolicy) (exePath : String),
      (process_exec_tool_call w ⟨[], cwd, tms, env⟩ SandboxType.LinuxSeccomp pol
          (some exePath)).2 =
        [⟨exePath, create_linux_sandbox_command_args [] pol cwd, "codex-linux-sandbox",
          cwd, StdioPolicy.RedirectForShellTool, child_env pol env⟩]) :=
  ⟨fun _ _ _ _ _ _ => rfl, fun _ _ _ _ _ _ => rfl, fun _ _ _ _ _ _ => rfl⟩

/-- Counterexample to C4 as stated: with full network access the marker
variable can still be present in the child's environment — the spawner
passes the caller-supplied environment through unchanged, so a caller
that itself includes the marker defeats "never present". -/
theorem c4_counterexample :
    polAll.has_full_network_access = true
    ∧ ((process_exec_tool_call (worldWith (childExiting (ExitStatus.exited 0)))
        ⟨["/bin/echo"], "/", none, [(CODEX_SANDBOX_NETWORK_DISABLED_ENV_VAR, "1")]⟩
        SandboxType.None polAll none).2.map
          (fun s => envLookup s.env CODEX_SANDBOX_NETWORK_DISABLED_ENV_VAR)) =
      [some "1"] :=
  ⟨rfl, rfl⟩

/-- C4 amended: for every spawn the call performs, the child's environment
looks up as the caller-supplied env overridden with the marker bound to
"1" when the policy disallows full network access, and exactly as the
caller-supplied env when full network is allowed — so no parent-process
variable leaks in, and the spawner never adds the marker under full
network access (it is then present only if the caller supplied it). -/
theorem c4_env_isolation_amended (w : World) (params : ExecParams) (st : SandboxType)
    (pol : SandboxPolicy) (exe : Option String) (spec : SpawnSpec)
    (hmem : spec ∈ (process_exec_tool_call w params st pol exe).2) (k : String) :
    envLookup spec.env k =
      if pol.has_full_network_access = false ∧ k = CODEX_SANDBOX_NETWORK_DISABLED_ENV_VAR
      then some "1" else envLookup params.env k := by
  obtain ⟨-, -, henv⟩ := process_trace_shape w params st pol exe spec hmem
  rw [henv, envLookup_child_env]

/-- Witness for C4 amended: under a no-network policy the spawned child's
environment binds the marker to "1". -/
theorem c4_env_isolation_amended_witness :
    (⟨"/bin/echo", [], "/bin/echo", "/", StdioPolicy.RedirectForShellTool,
        child_env polRestricted [("PATH", "/bin")]⟩ : SpawnSpec)
      ∈ (process_exec_tool_call (worldWith (childExiting (ExitStatus.exited 0)))
          ⟨["/bin/echo"], "/", none, [("PATH", "/bin")]⟩ SandboxType.None polRestricted
          none).2
    ∧ envLookup (child_env polRestricted [("PATH", "/bin")])
        CODEX_SANDBOX_NETWORK_DISABLED_ENV_VAR = some "1" := by
  refine ⟨List.Mem.head _, ?_⟩
  have h := c4_env_isolation_amended (worldWith (childExiting (ExitStatus.exited 0)))
    ⟨["/bin/echo"], "/", none, [("PATH", "/bin")]⟩ SandboxType.None polRestricted none
    ⟨"/bin/echo", [], "/bin/echo", "/", StdioPolicy.RedirectForShellTool,
      child_env polRestricted [("PATH", "/bin")]⟩ (List.Mem.head _)
    CODEX_SANDBOX_NETWORK_DISABLED_ENV_VAR
  simpa [polRestricted, SandboxPolicy.has_full_network_access] using h
